import Mathlib

/-!
Verification of the input-validation core of the PokeAPI-Data-Fetcher
repository.  The repository contains two Python files, `pokedex_gui.py` and
`request_API_From_PokeAPI.py`, each holding a (verbatim-duplicated) class
`InputValidator` whose method `validate_pokemon_name` validates and sanitizes
a user-supplied Pokémon name, and (in the GUI file) a helper `is_safe_input`.

Strings are modelled as `List Char` (Unicode code points, as in Python 3).
Python's `str.strip()`, `str.lower()` and the `re` character classes are
modelled as follows:

* `pyIsSpace` is exactly the set of code points Python's `str.isspace`,
  `str.strip()` and the `re` class `\s` (in Unicode mode, the default for
  `str` patterns) recognise as whitespace.
* `str.lower()` is modelled character-wise by `Char.toLower`, which is exact
  on ASCII (the only characters the validator can accept apart from
  whitespace) and the identity elsewhere.
* `re.IGNORECASE` matching of the (ASCII) SQL keywords is modelled by
  comparing characters after `Char.toLower` (exact for ASCII patterns).
* the word-character class behind `\b` is modelled by its ASCII part
  `[a-zA-Z0-9_]` (Python's `\w` additionally contains non-ASCII
  alphanumerics; all deny-list keywords are pure ASCII).
-/

namespace PokeFetcher

/-- Whitespace recognised by Python's `str.strip()` / `str.isspace()` and by
the regex class `\s` on `str` patterns: U+0009–U+000D, U+001C–U+001F, space,
U+0085, U+00A0, U+1680, U+2000–U+200A, U+2028, U+2029, U+202F, U+205F,
U+3000. -/
def pyIsSpace (c : Char) : Bool :=
  (9 ≤ c.toNat && c.toNat ≤ 13) || (28 ≤ c.toNat && c.toNat ≤ 32) ||
  c.toNat = 133 || c.toNat = 160 || c.toNat = 0x1680 ||
  (0x2000 ≤ c.toNat && c.toNat ≤ 0x200a) ||
  c.toNat = 0x2028 || c.toNat = 0x2029 || c.toNat = 0x202f ||
  c.toNat = 0x205f || c.toNat = 0x3000

/-- Model of Python `str.strip()`: remove leading and trailing whitespace. -/
def pyStrip (s : List Char) : List Char :=
  ((s.dropWhile pyIsSpace).reverse.dropWhile pyIsSpace).reverse

/-- Model of Python `str.lower()`, character-wise ASCII lowercasing. -/
def pyLower (s : List Char) : List Char :=
  s.map Char.toLower

/-- Class attribute `MAX_INPUT_LENGTH = 50`. -/
def MAX_INPUT_LENGTH : Nat := 50

/-- Character class of `VALID_NAME_PATTERN = re.compile(r'^[a-zA-Z0-9\-\s]+$')`:
ASCII letters, digits, hyphen, or whitespace (`\s`). -/
def isValidNameChar (c : Char) : Bool :=
  (97 ≤ c.toNat && c.toNat ≤ 122) || (65 ≤ c.toNat && c.toNat ≤ 90) ||
  (48 ≤ c.toNat && c.toNat ≤ 57) || c.toNat = 45 || pyIsSpace c

/-- Model of `VALID_NAME_PATTERN.match(s)` succeeding.  The pattern is
`^[a-zA-Z0-9\-\s]+$`; since `$` can only additionally match before a trailing
`'\n'` and `'\n'` is itself in the class `\s`, a match exists exactly when the
string is non-empty and every character is in the class. -/
def validNameMatch (s : List Char) : Bool :=
  !s.isEmpty && s.all isValidNameChar

/-- Word characters for the regex word boundary `\b` (ASCII part of `\w`):
letters, digits, underscore. -/
def isWordChar (c : Char) : Bool :=
  (97 ≤ c.toNat && c.toNat ≤ 122) || (65 ≤ c.toNat && c.toNat ≤ 90) ||
  (48 ≤ c.toNat && c.toNat ≤ 57) || c.toNat = 95

/-- Case-insensitive prefix match of a keyword against a string, as under
`re.IGNORECASE`; returns the rest of the string after the keyword when the
keyword is a prefix (up to case). -/
def matchKeywordHere : List Char → List Char → Option (List Char)
  | [], s => some s
  | _ :: _, [] => none
  | k :: ks, c :: cs =>
      if Char.toLower c = Char.toLower k then matchKeywordHere ks cs else none

/-- Both `\b` boundary conditions around a keyword occurrence: the previous
character (if any) and the next character (if any) are not word characters.
(All keywords consist of word characters, so `\b` reduces to this.) -/
def boundaryOk (prev : Option Char) (rest : List Char) : Bool :=
  (match prev with
   | none => true
   | some p => !isWordChar p) &&
  (match rest with
   | [] => true
   | c :: _ => !isWordChar c)

/-- Scan a string for a `\b`-delimited, case-insensitive occurrence of a
keyword; `prev` is the character just before the current position. -/
def keywordSearchAux (kw : List Char) : Option Char → List Char → Bool
  | prev, [] =>
    (match matchKeywordHere kw [] with
     | some rest => boundaryOk prev rest
     | none => false)
  | prev, c :: cs =>
    (match matchKeywordHere kw (c :: cs) with
     | some rest => boundaryOk prev rest
     | none => false) ||
    keywordSearchAux kw (some c) cs

/-- Model of `re.search(r'\b(KW)\b', s, re.IGNORECASE)` succeeding for one
keyword `KW`. -/
def keywordSearch (kw : List Char) (s : List Char) : Bool :=
  keywordSearchAux kw none s

/-- The keyword alternatives of the fifth deny-list pattern
`r'\b(SELECT|INSERT|UPDATE|DELETE|DROP|TRUNCATE|ALTER|CREATE|EXEC|UNION|OR|AND)\b'`
(stored lowercased; matching is case-insensitive). -/
def SQL_KEYWORDS : List (List Char) :=
  ["select".data, "insert".data, "update".data, "delete".data, "drop".data,
   "truncate".data, "alter".data, "create".data, "exec".data, "union".data,
   "or".data, "and".data]

/-- Substring occurrence test (`re.search` of a fixed literal pattern). -/
def isSubstring (pat : List Char) : List Char → Bool
  | [] => pat.isEmpty
  | c :: t => pat.isPrefixOf (c :: t) || isSubstring pat t

/-- Character class of the first deny-list pattern `[;'"`]` (code points 59,
39, 34, 96). -/
def isQuoteChar (c : Char) : Bool :=
  c.toNat = 59 || c.toNat = 39 || c.toNat = 34 || c.toNat = 96

/-- Character class of the deny-list pattern `[<>]` (code points 60, 62). -/
def isAngleChar (c : Char) : Bool :=
  c.toNat = 60 || c.toNat = 62

/-- Character class of the deny-list pattern `[/\]` (code points 47, 92). -/
def isPathSep (c : Char) : Bool :=
  c.toNat = 47 || c.toNat = 92

/-- Character class of the deny-list pattern `[\x00-\x1f]` (ASCII control
characters). -/
def isControlChar (c : Char) : Bool :=
  c.toNat ≤ 31

/-- Left `\b` condition carried through the keyword scan: satisfied when
there is no previous character or it is not a word character. -/
def prevOk : Option Char → Bool
  | none => true
  | some c => !isWordChar c

/-- Right `\b` condition after a keyword occurrence: satisfied when nothing
follows or the next character is not a word character. -/
def restOk : List Char → Bool
  | [] => true
  | c :: _ => !isWordChar c

/-- Model of the loop over `DANGEROUS_PATTERNS`: true when any of the nine
deny-list regexes matches somewhere in `s` (each searched with
`re.IGNORECASE`).  The patterns, in source order:
`[;'"`]`, `--`, `/*`, `*/`, the `\b`-delimited SQL keywords, `[<>]`, `..`,
`[/\]`, and `[\x00-\x1f]`. -/
def containsDangerous (s : List Char) : Bool :=
  s.any isQuoteChar ||
  isSubstring "--".data s ||
  isSubstring "/*".data s ||
  isSubstring "*/".data s ||
  SQL_KEYWORDS.any (fun kw => keywordSearch kw s) ||
  s.any isAngleChar ||
  isSubstring "..".data s ||
  s.any isPathSep ||
  s.any isControlChar

/-- Character class of the regex `^[a-z0-9\- ]*$` that the spec claims valid
sanitized values match: lowercase ASCII letters, digits, hyphen, and the
space character only.  Stated from the spec's words, for comparison with the
code's behaviour. -/
def specSanitizedChar (c : Char) : Bool :=
  (97 ≤ c.toNat && c.toNat ≤ 122) || (48 ≤ c.toNat && c.toNat ≤ 57) ||
  c.toNat = 45 || c.toNat = 32

/-- Character class actually guaranteed for sanitized values: lowercase ASCII
letters, digits, hyphen, or any Python whitespace character (the lowercased
form of the allow-list class `[a-zA-Z0-9\-\s]`). -/
def loweredNameChar (c : Char) : Bool :=
  (97 ≤ c.toNat && c.toNat ≤ 122) || (48 ≤ c.toNat && c.toNat ≤ 57) ||
  c.toNat = 45 || pyIsSpace c

/-- Result triple `(is_valid, sanitized_name, error_message)` returned by
`validate_pokemon_name` (the spec's `ValidationResult`). -/
structure ValidationResult where
  is_valid : Bool
  sanitized_name : List Char
  error_message : String
deriving Repr, DecidableEq

/-- Error message of the empty-input failure (spec taxonomy `EmptyInput`). -/
def MSG_EMPTY : String := "Please enter a Pokémon name"

/-- Error message of the length failure (spec taxonomy `TooLong`). -/
def MSG_TOO_LONG : String :=
  "Input too long (max " ++ toString MAX_INPUT_LENGTH ++ " characters)"

/-- Error message of the deny-list failure (spec taxonomy `DangerousPattern`). -/
def MSG_DANGEROUS : String := "Invalid characters detected in input"

/-- Error message of the allow-list failure (spec taxonomy
`InvalidCharacterSet`). -/
def MSG_CHARSET : String := "Pokémon name can only contain letters, numbers, and hyphens"

/-- Model of `InputValidator.validate_pokemon_name` from `pokedex_gui.py`
(lines 37–68), step for step:
empty check on the raw input, strip + lowercase, length check on the
sanitized string, deny-list scan on the raw input, allow-list match on the
sanitized string. -/
def validate_pokemon_name (name : List Char) : ValidationResult :=
  if name.isEmpty || (pyStrip name).isEmpty then
    ⟨false, [], MSG_EMPTY⟩
  else
    let sanitized := pyLower (pyStrip name)
    if MAX_INPUT_LENGTH < sanitized.length then
      ⟨false, [], MSG_TOO_LONG⟩
    else if containsDangerous name then
      ⟨false, [], MSG_DANGEROUS⟩
    else if !validNameMatch sanitized then
      ⟨false, [], MSG_CHARSET⟩
    else
      ⟨true, sanitized, ""⟩

/-- Model of `InputValidator.is_safe_input` from `pokedex_gui.py`
(lines 70–88): reject empty input, then reject when any deny-list pattern
matches the raw input. -/
def is_safe_input (user_input : List Char) : Bool :=
  if user_input.isEmpty then
    false
  else
    !containsDangerous user_input

end PokeFetcher

namespace RequestAPI

/-- Class attribute `MAX_INPUT_LENGTH = 50` of the duplicated
`InputValidator` in `request_API_From_PokeAPI.py`. -/
def MAX_INPUT_LENGTH : Nat := 50

/-- Deny-list scan of the duplicated `InputValidator` in
`request_API_From_PokeAPI.py` (its `DANGEROUS_PATTERNS` list is
character-for-character the one in `pokedex_gui.py`). -/
def containsDangerous (s : List Char) : Bool :=
  s.any (fun c => c.toNat = 59 || c.toNat = 39 || c.toNat = 34 || c.toNat = 96) ||
  PokeFetcher.isSubstring "--".data s ||
  PokeFetcher.isSubstring "/*".data s ||
  PokeFetcher.isSubstring "*/".data s ||
  PokeFetcher.SQL_KEYWORDS.any (fun kw => PokeFetcher.keywordSearch kw s) ||
  s.any (fun c => c.toNat = 60 || c.toNat = 62) ||
  PokeFetcher.isSubstring "..".data s ||
  s.any (fun c => c.toNat = 47 || c.toNat = 92) ||
  s.any (fun c => c.toNat ≤ 31)

/-- Model of `InputValidator.validate_pokemon_name` from
`request_API_From_PokeAPI.py` (lines 32–63), a verbatim duplicate of the one
in `pokedex_gui.py`. -/
def validate_pokemon_name (name : List Char) : PokeFetcher.ValidationResult :=
  if name.isEmpty || (PokeFetcher.pyStrip name).isEmpty then
    ⟨false, [], "Please enter a Pokémon name"⟩
  else
    let sanitized := PokeFetcher.pyLower (PokeFetcher.pyStrip name)
    if MAX_INPUT_LENGTH < sanitized.length then
      ⟨false, [], "Input too long (max " ++ toString MAX_INPUT_LENGTH ++ " characters)"⟩
    else if containsDangerous name then
      ⟨false, [], "Invalid characters detected in input"⟩
    else if !PokeFetcher.validNameMatch sanitized then
      ⟨false, [], "Pokémon name can only contain letters, numbers, and hyphens"⟩
    else
      ⟨true, sanitized, ""⟩

end RequestAPI

namespace PokeFetcher

example : validate_pokemon_name "pikachu".data = ⟨true, "pikachu".data, ""⟩ := by decide

example : validate_pokemon_name "mr-mime".data = ⟨true, "mr-mime".data, ""⟩ := by decide

example : validate_pokemon_name "".data = ⟨false, [], MSG_EMPTY⟩ := by decide

example : validate_pokemon_name "   ".data = ⟨false, [], MSG_EMPTY⟩ := by decide

example :
    validate_pokemon_name "Pikachu; DROP TABLE x".data = ⟨false, [], MSG_DANGEROUS⟩ := by decide

example :
    validate_pokemon_name "../../etc/passwd".data = ⟨false, [], MSG_DANGEROUS⟩ := by decide

example : validate_pokemon_name "café".data = ⟨false, [], MSG_CHARSET⟩ := by decide

example :
    validate_pokemon_name (List.replicate 51 'a') = ⟨false, [], MSG_TOO_LONG⟩ := by decide

/-! Branch characterizations of `validate_pokemon_name`. -/

theorem pyStrip_nil : pyStrip [] = [] := rfl

theorem pyStrip_isEmpty_false {s : List Char}
    (h : (pyStrip s).isEmpty = false) : s.isEmpty = false := by
  cases s with
  | nil => simp [pyStrip_nil] at h
  | cons c t => rfl

theorem validate_empty {s : List Char} (h : (pyStrip s).isEmpty = true) :
    validate_pokemon_name s = ⟨false, [], MSG_EMPTY⟩ := by
  unfold validate_pokemon_name
  rw [h]
  simp

theorem validate_too_long {s : List Char}
    (h : (pyStrip s).isEmpty = false)
    (hl : MAX_INPUT_LENGTH < (pyLower (pyStrip s)).length) :
    validate_pokemon_name s = ⟨false, [], MSG_TOO_LONG⟩ := by
  unfold validate_pokemon_name
  rw [h, pyStrip_isEmpty_false h]
  simp [hl]

theorem validate_dangerous {s : List Char}
    (h : (pyStrip s).isEmpty = false)
    (hl : (pyLower (pyStrip s)).length ≤ MAX_INPUT_LENGTH)
    (hd : containsDangerous s = true) :
    validate_pokemon_name s = ⟨false, [], MSG_DANGEROUS⟩ := by
  unfold validate_pokemon_name
  rw [h, pyStrip_isEmpty_false h]
  simp [Nat.not_lt.mpr hl, hd]

theorem validate_charset {s : List Char}
    (h : (pyStrip s).isEmpty = false)
    (hl : (pyLower (pyStrip s)).length ≤ MAX_INPUT_LENGTH)
    (hd : containsDangerous s = false)
    (hm : validNameMatch (pyLower (pyStrip s)) = false) :
    validate_pokemon_name s = ⟨false, [], MSG_CHARSET⟩ := by
  unfold validate_pokemon_name
  rw [h, pyStrip_isEmpty_false h]
  simp [Nat.not_lt.mpr hl, hd, hm]

theorem validate_ok {s : List Char}
    (h : (pyStrip s).isEmpty = false)
    (hl : (pyLower (pyStrip s)).length ≤ MAX_INPUT_LENGTH)
    (hd : containsDangerous s = false)
    (hm : validNameMatch (pyLower (pyStrip s)) = true) :
    validate_pokemon_name s = ⟨true, pyLower (pyStrip s), ""⟩ := by
  unfold validate_pokemon_name
  rw [h, pyStrip_isEmpty_false h]
  simp [Nat.not_lt.mpr hl, hd, hm]

theorem validate_cases (s : List Char) :
    validate_pokemon_name s = ⟨false, [], MSG_EMPTY⟩ ∨
    validate_pokemon_name s = ⟨false, [], MSG_TOO_LONG⟩ ∨
    validate_pokemon_name s = ⟨false, [], MSG_DANGEROUS⟩ ∨
    validate_pokemon_name s = ⟨false, [], MSG_CHARSET⟩ ∨
    validate_pokemon_name s = ⟨true, pyLower (pyStrip s), ""⟩ := by
  by_cases h : (pyStrip s).isEmpty = true
  · exact Or.inl (validate_empty h)
  · have h' : (pyStrip s).isEmpty = false := by
      cases hb : (pyStrip s).isEmpty
      · rfl
      · exact absurd hb h
    by_cases hl : MAX_INPUT_LENGTH < (pyLower (pyStrip s)).length
    · exact Or.inr (Or.inl (validate_too_long h' hl))
    · have hl' := Nat.not_lt.mp hl
      by_cases hd : containsDangerous s = true
      · exact Or.inr (Or.inr (Or.inl (validate_dangerous h' hl' hd)))
      · have hd' : containsDangerous s = false := by
          cases hb : containsDangerous s
          · rfl
          · exact absurd hb hd
        cases hm : validNameMatch (pyLower (pyStrip s)) with
        | false => exact Or.inr (Or.inr (Or.inr (Or.inl (validate_charset h' hl' hd' hm))))
        | true => exact Or.inr (Or.inr (Or.inr (Or.inr (validate_ok h' hl' hd' hm))))

theorem valid_conditions {s : List Char}
    (h : (validate_pokemon_name s).is_valid = true) :
    (pyStrip s).isEmpty = false ∧
    (pyLower (pyStrip s)).length ≤ MAX_INPUT_LENGTH ∧
    containsDangerous s = false ∧
    validNameMatch (pyLower (pyStrip s)) = true ∧
    validate_pokemon_name s = ⟨true, pyLower (pyStrip s), ""⟩ := by
  have h' : (pyStrip s).isEmpty = false := by
    cases hb : (pyStrip s).isEmpty
    · rfl
    · rw [validate_empty hb] at h; simp at h
  have hl : (pyLower (pyStrip s)).length ≤ MAX_INPUT_LENGTH := by
    by_cases hl0 : MAX_INPUT_LENGTH < (pyLower (pyStrip s)).length
    · rw [validate_too_long h' hl0] at h; simp at h
    · exact Nat.not_lt.mp hl0
  have hd : containsDangerous s = false := by
    cases hb : containsDangerous s
    · rfl
    · rw [validate_dangerous h' hl hb] at h; simp at h
  have hm : validNameMatch (pyLower (pyStrip s)) = true := by
    cases hb : validNameMatch (pyLower (pyStrip s))
    · rw [validate_charset h' hl hd hb] at h; simp at h
    · rfl
  exact ⟨h', hl, hd, hm, validate_ok h' hl hd hm⟩

theorem validNameMatch_ne_nil {s : List Char} (h : validNameMatch s = true) :
    s ≠ [] := by
  intro hnil
  rw [hnil] at h
  simp [validNameMatch] at h

theorem pyStrip_eq_nil_of_all {s : List Char} (h : s.all pyIsSpace = true) :
    pyStrip s = [] := by
  unfold pyStrip
  have h1 : s.dropWhile pyIsSpace = [] :=
    List.dropWhile_eq_nil_iff.mpr (fun x hx => List.all_eq_true.mp h x hx)
  rw [h1]
  rfl

/-! Arithmetic facts about `Char.toLower` (ASCII lowercasing). -/

theorem toNat_ofNat_valid {n : Nat} (h : n < 55296) : (Char.ofNat n).toNat = n := by
  unfold Char.ofNat
  rw [dif_pos (Or.inl h)]
  rfl

theorem toLower_eq_of_upper {c : Char} (h1 : 65 ≤ c.toNat) (h2 : c.toNat ≤ 90) :
    Char.toLower c = Char.ofNat (c.toNat + 32) := by
  unfold Char.toLower
  exact if_pos ⟨h1, h2⟩

theorem toLower_toNat_of_upper {c : Char} (h1 : 65 ≤ c.toNat) (h2 : c.toNat ≤ 90) :
    (Char.toLower c).toNat = c.toNat + 32 := by
  rw [toLower_eq_of_upper h1 h2]
  exact toNat_ofNat_valid (by omega)

theorem toLower_eq_of_not_upper {c : Char} (h : ¬(65 ≤ c.toNat ∧ c.toNat ≤ 90)) :
    Char.toLower c = c := by
  unfold Char.toLower
  exact if_neg h

theorem toLower_not_upper (c : Char) :
    ¬(65 ≤ (Char.toLower c).toNat ∧ (Char.toLower c).toNat ≤ 90) := by
  by_cases h : 65 ≤ c.toNat ∧ c.toNat ≤ 90
  · rw [toLower_toNat_of_upper h.1 h.2]
    omega
  · rw [toLower_eq_of_not_upper h]
    exact h

theorem toLower_toLower (c : Char) :
    Char.toLower (Char.toLower c) = Char.toLower c :=
  toLower_eq_of_not_upper (toLower_not_upper c)

/-! Characterizations of the character classes, and their interaction with
`Char.toLower`. -/

theorem pyIsSpace_iff {c : Char} : pyIsSpace c = true ↔
    ((9 ≤ c.toNat ∧ c.toNat ≤ 13) ∨ (28 ≤ c.toNat ∧ c.toNat ≤ 32) ∨
     c.toNat = 133 ∨ c.toNat = 160 ∨ c.toNat = 5760 ∨
     (8192 ≤ c.toNat ∧ c.toNat ≤ 8202) ∨ c.toNat = 8232 ∨ c.toNat = 8233 ∨
     c.toNat = 8239 ∨ c.toNat = 8287 ∨ c.toNat = 12288) := by
  unfold pyIsSpace
  simp only [Bool.or_eq_true, Bool.and_eq_true, decide_eq_true_eq]
  omega

theorem isWordChar_iff {c : Char} : isWordChar c = true ↔
    ((97 ≤ c.toNat ∧ c.toNat ≤ 122) ∨ (65 ≤ c.toNat ∧ c.toNat ≤ 90) ∨
     (48 ≤ c.toNat ∧ c.toNat ≤ 57) ∨ c.toNat = 95) := by
  unfold isWordChar
  simp only [Bool.or_eq_true, Bool.and_eq_true, decide_eq_true_eq]
  omega

theorem isValidNameChar_iff {c : Char} : isValidNameChar c = true ↔
    ((97 ≤ c.toNat ∧ c.toNat ≤ 122) ∨ (65 ≤ c.toNat ∧ c.toNat ≤ 90) ∨
     (48 ≤ c.toNat ∧ c.toNat ≤ 57) ∨ c.toNat = 45 ∨ pyIsSpace c = true) := by
  unfold isValidNameChar
  simp only [Bool.or_eq_true, Bool.and_eq_true, decide_eq_true_eq]
  tauto

theorem loweredNameChar_iff {c : Char} : loweredNameChar c = true ↔
    ((97 ≤ c.toNat ∧ c.toNat ≤ 122) ∨ (48 ≤ c.toNat ∧ c.toNat ≤ 57) ∨
     c.toNat = 45 ∨ pyIsSpace c = true) := by
  unfold loweredNameChar
  simp only [Bool.or_eq_true, Bool.and_eq_true, decide_eq_true_eq]
  tauto

theorem pyIsSpace_toLower (c : Char) :
    pyIsSpace (Char.toLower c) = pyIsSpace c := by
  by_cases h : 65 ≤ c.toNat ∧ c.toNat ≤ 90
  · have he := toLower_toNat_of_upper h.1 h.2
    have h1 : pyIsSpace c = false := by
      cases hb : pyIsSpace c
      · rfl
      · exact absurd (pyIsSpace_iff.mp hb) (by omega)
    have h2 : pyIsSpace (Char.toLower c) = false := by
      cases hb : pyIsSpace (Char.toLower c)
      · rfl
      · have := pyIsSpace_iff.mp hb
        rw [he] at this
        exact absurd this (by omega)
    rw [h1, h2]
  · rw [toLower_eq_of_not_upper h]

theorem isWordChar_toLower (c : Char) :
    isWordChar (Char.toLower c) = isWordChar c := by
  by_cases h : 65 ≤ c.toNat ∧ c.toNat ≤ 90
  · have he := toLower_toNat_of_upper h.1 h.2
    have h1 : isWordChar c = true := isWordChar_iff.mpr (by omega)
    have h2 : isWordChar (Char.toLower c) = true := by
      rw [isWordChar_iff, he]
      omega
    rw [h1, h2]
  · rw [toLower_eq_of_not_upper h]

theorem all_loweredNameChar_of_map {t : List Char}
    (h : (t.map Char.toLower).all isValidNameChar = true) :
    (t.map Char.toLower).all loweredNameChar = true := by
  rw [List.all_eq_true] at h ⊢
  intro x hx
  have hv := isValidNameChar_iff.mp (h x hx)
  rcases List.mem_map.mp hx with ⟨c, _, rfl⟩
  have hnu := toLower_not_upper c
  rw [loweredNameChar_iff]
  tauto

/-! Structural lemmas about `pyStrip` and `pyLower`. -/

theorem bool_eq_false {b : Bool} (h : ¬b = true) : b = false := by
  cases b
  · rfl
  · exact absurd rfl h

theorem dropWhile_head_false {p : Char → Bool} {l : List Char} {c : Char}
    {t : List Char} (h : l.dropWhile p = c :: t) : p c = false := by
  induction l with
  | nil => simp at h
  | cons a b ih =>
    rw [List.dropWhile_cons] at h
    by_cases ha : p a = true
    · rw [if_pos ha] at h
      exact ih h
    · rw [if_neg ha] at h
      cases h
      exact bool_eq_false ha

theorem dropWhile_idem (p : Char → Bool) (l : List Char) :
    (l.dropWhile p).dropWhile p = l.dropWhile p := by
  cases hd : l.dropWhile p with
  | nil => rfl
  | cons c t =>
    rw [List.dropWhile_cons, if_neg]
    rw [dropWhile_head_false hd]
    simp

theorem dropWhile_is_suffix (p : Char → Bool) (l : List Char) :
    ∃ t, (∀ c ∈ t, p c = true) ∧ t ++ l.dropWhile p = l := by
  induction l with
  | nil => exact ⟨[], by simp, rfl⟩
  | cons a b ih =>
    by_cases h : p a = true
    · obtain ⟨t, ht, hteq⟩ := ih
      refine ⟨a :: t, ?_, ?_⟩
      · intro c hc
        rcases List.mem_cons.mp hc with hc | hc
        · rw [hc]; exact h
        · exact ht c hc
      · rw [List.dropWhile_cons, if_pos h, List.cons_append, hteq]
    · exact ⟨[], by simp, by rw [List.dropWhile_cons, if_neg h]; rfl⟩

theorem pyStrip_append_eq_dropWhile (l : List Char) :
    ∃ ws2, (∀ c ∈ ws2, pyIsSpace c = true) ∧
      pyStrip l ++ ws2 = l.dropWhile pyIsSpace := by
  obtain ⟨t2, ht2, he2⟩ :=
    dropWhile_is_suffix pyIsSpace (l.dropWhile pyIsSpace).reverse
  refine ⟨t2.reverse, fun c hc => ht2 c (by simpa using hc), ?_⟩
  unfold pyStrip
  rw [← List.reverse_append, he2, List.reverse_reverse]

theorem pyStrip_decomp (l : List Char) :
    ∃ ws1 ws2, (∀ c ∈ ws1, pyIsSpace c = true) ∧
      (∀ c ∈ ws2, pyIsSpace c = true) ∧ l = ws1 ++ (pyStrip l ++ ws2) := by
  obtain ⟨t1, ht1, he1⟩ := dropWhile_is_suffix pyIsSpace l
  obtain ⟨ws2, hws2, h3⟩ := pyStrip_append_eq_dropWhile l
  exact ⟨t1, ws2, ht1, hws2, by rw [h3, he1]⟩

theorem pyStrip_dropWhile_self (l : List Char) :
    (pyStrip l).dropWhile pyIsSpace = pyStrip l := by
  cases hA : l.dropWhile pyIsSpace with
  | nil =>
    have : pyStrip l = [] := by
      unfold pyStrip
      rw [hA]
      rfl
    rw [this]
    rfl
  | cons c t =>
    have hc : pyIsSpace c = false := dropWhile_head_false hA
    obtain ⟨ws2, _, h3⟩ := pyStrip_append_eq_dropWhile l
    cases hB : pyStrip l with
    | nil => rfl
    | cons d u =>
      have hd : d = c := by
        rw [hB, hA] at h3
        exact (List.cons.injEq _ _ _ _ ▸ h3).1
      rw [List.dropWhile_cons, if_neg]
      rw [hd, hc]
      simp

theorem pyStrip_idem (l : List Char) : pyStrip (pyStrip l) = pyStrip l := by
  have h1 := pyStrip_dropWhile_self l
  have h2 : (pyStrip l).reverse.dropWhile pyIsSpace = (pyStrip l).reverse := by
    have hr : (pyStrip l).reverse =
        (l.dropWhile pyIsSpace).reverse.dropWhile pyIsSpace := by
      unfold pyStrip
      rw [List.reverse_reverse]
    rw [hr, dropWhile_idem]
  calc pyStrip (pyStrip l)
      = (((pyStrip l).dropWhile pyIsSpace).reverse.dropWhile pyIsSpace).reverse := rfl
    _ = ((pyStrip l).reverse.dropWhile pyIsSpace).reverse := by rw [h1]
    _ = (pyStrip l).reverse.reverse := by rw [h2]
    _ = pyStrip l := List.reverse_reverse _

theorem dropWhile_map_toLower (l : List Char) :
    (l.map Char.toLower).dropWhile pyIsSpace =
      (l.dropWhile pyIsSpace).map Char.toLower := by
  rw [List.dropWhile_map]
  have hf : (pyIsSpace ∘ Char.toLower) = pyIsSpace := funext pyIsSpace_toLower
  rw [hf]

theorem pyStrip_map_toLower (l : List Char) :
    pyStrip (l.map Char.toLower) = (pyStrip l).map Char.toLower := by
  unfold pyStrip
  rw [dropWhile_map_toLower, ← List.map_reverse, dropWhile_map_toLower,
    ← List.map_reverse]

theorem pyLower_idem (l : List Char) : pyLower (pyLower l) = pyLower l := by
  unfold pyLower
  rw [List.map_map]
  congr 1
  funext c
  exact toLower_toLower c

theorem pyStrip_pyLower_pyStrip (l : List Char) :
    pyStrip (pyLower (pyStrip l)) = pyLower (pyStrip l) := by
  unfold pyLower
  rw [pyStrip_map_toLower, pyStrip_idem]

/-! Deny-list patterns are insensitive to ASCII lowercasing. -/

theorem isQuoteChar_iff {c : Char} : isQuoteChar c = true ↔
    (c.toNat = 59 ∨ c.toNat = 39 ∨ c.toNat = 34 ∨ c.toNat = 96) := by
  unfold isQuoteChar
  simp only [Bool.or_eq_true, decide_eq_true_eq]
  omega

theorem isAngleChar_iff {c : Char} : isAngleChar c = true ↔
    (c.toNat = 60 ∨ c.toNat = 62) := by
  unfold isAngleChar
  simp only [Bool.or_eq_true, decide_eq_true_eq]

theorem isPathSep_iff {c : Char} : isPathSep c = true ↔
    (c.toNat = 47 ∨ c.toNat = 92) := by
  unfold isPathSep
  simp only [Bool.or_eq_true, decide_eq_true_eq]

theorem isControlChar_iff {c : Char} : isControlChar c = true ↔ c.toNat ≤ 31 := by
  unfold isControlChar
  simp only [decide_eq_true_eq]

theorem class_toLower_invariant {q : Char → Bool}
    (h1 : ∀ d, 65 ≤ d.toNat → d.toNat ≤ 90 → q d = false)
    (h2 : ∀ d, 97 ≤ d.toNat → d.toNat ≤ 122 → q d = false) (c : Char) :
    q (Char.toLower c) = q c := by
  by_cases h : 65 ≤ c.toNat ∧ c.toNat ≤ 90
  · have ha : 97 ≤ (Char.toLower c).toNat := by
      rw [toLower_toNat_of_upper h.1 h.2]; omega
    have hb : (Char.toLower c).toNat ≤ 122 := by
      rw [toLower_toNat_of_upper h.1 h.2]; omega
    rw [h2 _ ha hb, h1 c h.1 h.2]
  · rw [toLower_eq_of_not_upper h]

theorem isQuoteChar_toLower (c : Char) :
    isQuoteChar (Char.toLower c) = isQuoteChar c :=
  class_toLower_invariant
    (fun d hd1 hd2 => bool_eq_false (fun hb => by
      have := isQuoteChar_iff.mp hb; omega))
    (fun d hd1 hd2 => bool_eq_false (fun hb => by
      have := isQuoteChar_iff.mp hb; omega)) c

theorem isAngleChar_toLower (c : Char) :
    isAngleChar (Char.toLower c) = isAngleChar c :=
  class_toLower_invariant
    (fun d hd1 hd2 => bool_eq_false (fun hb => by
      have := isAngleChar_iff.mp hb; omega))
    (fun d hd1 hd2 => bool_eq_false (fun hb => by
      have := isAngleChar_iff.mp hb; omega)) c

theorem isPathSep_toLower (c : Char) :
    isPathSep (Char.toLower c) = isPathSep c :=
  class_toLower_invariant
    (fun d hd1 hd2 => bool_eq_false (fun hb => by
      have := isPathSep_iff.mp hb; omega))
    (fun d hd1 hd2 => bool_eq_false (fun hb => by
      have := isPathSep_iff.mp hb; omega)) c

theorem isControlChar_toLower (c : Char) :
    isControlChar (Char.toLower c) = isControlChar c :=
  class_toLower_invariant
    (fun d hd1 hd2 => bool_eq_false (fun hb => by
      have := isControlChar_iff.mp hb; omega))
    (fun d hd1 hd2 => bool_eq_false (fun hb => by
      have := isControlChar_iff.mp hb; omega)) c

theorem pyIsSpace_not_word {c : Char} (h : pyIsSpace c = true) :
    isWordChar c = false := by
  have hs := pyIsSpace_iff.mp h
  exact bool_eq_false (fun hw => by have := isWordChar_iff.mp hw; omega)

theorem any_class_map_toLower {q : Char → Bool}
    (hq : ∀ c, q (Char.toLower c) = q c) (l : List Char) :
    (l.map Char.toLower).any q = l.any q := by
  rw [List.any_map]
  have hf : (q ∘ Char.toLower) = q := funext hq
  rw [hf]

/-! Substring occurrences: characterization, padding, lowercasing. -/

theorem isSubstring_cons_eq (pat : List Char) (c : Char) (t : List Char) :
    isSubstring pat (c :: t) = (pat.isPrefixOf (c :: t) || isSubstring pat t) :=
  rfl

theorem isSubstring_iff {pat s : List Char} :
    isSubstring pat s = true ↔ ∃ u v, s = u ++ (pat ++ v) := by
  induction s with
  | nil =>
    constructor
    · intro h
      have hp : pat = [] := by
        cases pat with
        | nil => rfl
        | cons a b => simp [isSubstring] at h
      exact ⟨[], [], by simp [hp]⟩
    · rintro ⟨u, v, huv⟩
      cases u with
      | cons x xs => simp at huv
      | nil =>
        cases pat with
        | nil => rfl
        | cons a b => simp at huv
  | cons c t ih =>
    rw [isSubstring_cons_eq, Bool.or_eq_true, List.isPrefixOf_iff_prefix, ih]
    constructor
    · rintro (⟨r, hr⟩ | ⟨u, v, huv⟩)
      · exact ⟨[], r, by simp [hr]⟩
      · exact ⟨c :: u, v, by rw [huv, List.cons_append]⟩
    · rintro ⟨u, v, huv⟩
      cases u with
      | nil =>
        left
        exact ⟨v, by simpa using huv.symm⟩
      | cons x xs =>
        right
        rw [List.cons_append] at huv
        injection huv with hx ht
        exact ⟨xs, v, ht⟩

theorem isSubstring_pad {pat t : List Char} (ws1 ws2 : List Char)
    (h : isSubstring pat t = true) :
    isSubstring pat (ws1 ++ (t ++ ws2)) = true := by
  obtain ⟨u, v, rfl⟩ := isSubstring_iff.mp h
  refine isSubstring_iff.mpr ⟨ws1 ++ u, v ++ ws2, ?_⟩
  simp [List.append_assoc]

theorem toLower_fix_iff {d : Char} (h1 : ¬(97 ≤ d.toNat ∧ d.toNat ≤ 122))
    (h2 : ¬(65 ≤ d.toNat ∧ d.toNat ≤ 90)) (c : Char) :
    Char.toLower c = d ↔ c = d := by
  constructor
  · intro h
    by_cases hc : 65 ≤ c.toNat ∧ c.toNat ≤ 90
    · exfalso
      have hn := toLower_toNat_of_upper hc.1 hc.2
      rw [h] at hn
      omega
    · rw [toLower_eq_of_not_upper hc] at h
      exact h
  · intro h
    rw [h]
    exact toLower_eq_of_not_upper h2

theorem isSubstring_pair_map {a b : Char}
    (ha : ∀ c, Char.toLower c = a ↔ c = a)
    (hb : ∀ c, Char.toLower c = b ↔ c = b) (l : List Char) :
    isSubstring [a, b] (l.map Char.toLower) = isSubstring [a, b] l := by
  induction l with
  | nil => rfl
  | cons c t ih =>
    rw [List.map_cons, isSubstring_cons_eq, isSubstring_cons_eq, ih]
    congr 1
    rw [Bool.eq_iff_iff, List.isPrefixOf_iff_prefix, List.isPrefixOf_iff_prefix]
    constructor
    · rintro ⟨r, hr⟩
      rw [List.cons_append, List.cons_append] at hr
      cases t with
      | nil => simp at hr
      | cons d u =>
        rw [List.map_cons] at hr
        injection hr with hr1 hr2
        injection hr2 with hr2 hr3
        have hc : c = a := (ha c).mp hr1.symm
        have hd : d = b := (hb d).mp hr2.symm
        refine ⟨u, ?_⟩
        rw [List.cons_append, List.cons_append, List.nil_append, hc, hd]
    · rintro ⟨r, hr⟩
      rw [List.cons_append, List.cons_append] at hr
      cases t with
      | nil => simp at hr
      | cons d u =>
        injection hr with hr1 hr2
        injection hr2 with hr2 hr3
        have hc : Char.toLower c = a := (ha c).mpr hr1.symm
        have hd : Char.toLower d = b := (hb d).mpr hr2.symm
        refine ⟨u.map Char.toLower, ?_⟩
        simp [List.map_cons, hc, hd, List.cons_append]

/-! Keyword occurrences: lowercasing invariance and whitespace padding. -/

theorem boundaryOk_eq (prev : Option Char) (rest : List Char) :
    boundaryOk prev rest = (prevOk prev && restOk rest) := by
  cases prev <;> cases rest <;> rfl

theorem restOk_map_toLower (rest : List Char) :
    restOk (rest.map Char.toLower) = restOk rest := by
  cases rest with
  | nil => rfl
  | cons d u =>
    show (!isWordChar (Char.toLower d)) = !isWordChar d
    rw [isWordChar_toLower]

theorem restOk_append_ws {rest ws : List Char}
    (hws : ∀ c ∈ ws, pyIsSpace c = true) (h : restOk rest = true) :
    restOk (rest ++ ws) = true := by
  cases rest with
  | cons d u => exact h
  | nil =>
    cases ws with
    | nil => rfl
    | cons w ws' =>
      show (!isWordChar w) = true
      rw [pyIsSpace_not_word (hws w (by simp))]
      rfl

theorem matchKeywordHere_map (kw l : List Char) :
    matchKeywordHere kw (l.map Char.toLower) =
      Option.map (List.map Char.toLower) (matchKeywordHere kw l) := by
  induction kw generalizing l with
  | nil => rfl
  | cons k ks ih =>
    cases l with
    | nil => rfl
    | cons c cs =>
      rw [List.map_cons]
      show (if Char.toLower (Char.toLower c) = Char.toLower k then
          matchKeywordHere ks (cs.map Char.toLower) else none) = _
      rw [toLower_toLower]
      by_cases h : Char.toLower c = Char.toLower k
      · rw [if_pos h]
        show _ = Option.map _ (if Char.toLower c = Char.toLower k then
          matchKeywordHere ks cs else none)
        rw [if_pos h]
        exact ih cs
      · rw [if_neg h]
        show _ = Option.map _ (if Char.toLower c = Char.toLower k then
          matchKeywordHere ks cs else none)
        rw [if_neg h]
        rfl

theorem matchKeywordHere_append {kw l rest : List Char} (ws : List Char)
    (h : matchKeywordHere kw l = some rest) :
    matchKeywordHere kw (l ++ ws) = some (rest ++ ws) := by
  induction kw generalizing l with
  | nil =>
    have hl : l = rest := by
      simpa [matchKeywordHere] using h
    rw [hl]
    rfl
  | cons k ks ih =>
    cases l with
    | nil => simp [matchKeywordHere] at h
    | cons c cs =>
      rw [List.cons_append]
      show (if Char.toLower c = Char.toLower k then
          matchKeywordHere ks (cs ++ ws) else none) = _
      by_cases hc : Char.toLower c = Char.toLower k
      · rw [if_pos hc]
        have h' : matchKeywordHere ks cs = some rest := by
          have hh : (if Char.toLower c = Char.toLower k then
              matchKeywordHere ks cs else none) = some rest := h
          rwa [if_pos hc] at hh
        exact ih h'
      · exfalso
        have hh : (if Char.toLower c = Char.toLower k then
            matchKeywordHere ks cs else none) = some rest := h
        rw [if_neg hc] at hh
        cases hh

theorem keywordSearchAux_nil_eq (kw : List Char) (p : Option Char) :
    keywordSearchAux kw p [] =
      (match matchKeywordHere kw [] with
       | some rest => boundaryOk p rest
       | none => false) := rfl

theorem keywordSearchAux_cons_eq (kw : List Char) (p : Option Char)
    (c : Char) (cs : List Char) :
    keywordSearchAux kw p (c :: cs) =
      ((match matchKeywordHere kw (c :: cs) with
        | some rest => boundaryOk p rest
        | none => false) ||
       keywordSearchAux kw (some c) cs) := rfl

theorem keywordSearchAux_prevOk {kw : List Char} :
    ∀ (s : List Char) (p q : Option Char), prevOk p = prevOk q →
      keywordSearchAux kw p s = keywordSearchAux kw q s := by
  intro s
  cases s with
  | nil =>
    intro p q h
    rw [keywordSearchAux_nil_eq, keywordSearchAux_nil_eq]
    cases hm : matchKeywordHere kw [] with
    | none => rfl
    | some rest =>
      show boundaryOk p rest = boundaryOk q rest
      rw [boundaryOk_eq, boundaryOk_eq, h]
  | cons c cs =>
    intro p q h
    rw [keywordSearchAux_cons_eq, keywordSearchAux_cons_eq]
    cases hm : matchKeywordHere kw (c :: cs) with
    | none => rfl
    | some rest =>
      show (boundaryOk p rest || keywordSearchAux kw (some c) cs) =
        (boundaryOk q rest || keywordSearchAux kw (some c) cs)
      rw [boundaryOk_eq, boundaryOk_eq, h]

theorem keywordSearchAux_map {kw : List Char} :
    ∀ (l : List Char) (p q : Option Char), prevOk p = prevOk q →
      keywordSearchAux kw p (l.map Char.toLower) = keywordSearchAux kw q l := by
  intro l
  induction l with
  | nil => exact fun p q h => keywordSearchAux_prevOk [] p q h
  | cons c cs ih =>
    intro p q h
    have hL : matchKeywordHere kw (Char.toLower c :: cs.map Char.toLower) =
        Option.map (List.map Char.toLower) (matchKeywordHere kw (c :: cs)) :=
      matchKeywordHere_map kw (c :: cs)
    have htail : keywordSearchAux kw (some (Char.toLower c)) (cs.map Char.toLower) =
        keywordSearchAux kw (some c) cs := by
      apply ih
      show (!isWordChar (Char.toLower c)) = !isWordChar c
      rw [isWordChar_toLower]
    rw [List.map_cons, keywordSearchAux_cons_eq, keywordSearchAux_cons_eq,
      htail, hL]
    cases hm : matchKeywordHere kw (c :: cs) with
    | none => rfl
    | some rest =>
      show (boundaryOk p (rest.map Char.toLower) || keywordSearchAux kw (some c) cs) =
        (boundaryOk q rest || keywordSearchAux kw (some c) cs)
      rw [boundaryOk_eq, boundaryOk_eq, restOk_map_toLower, h]

theorem keywordSearchAux_append {kw : List Char} (ws : List Char)
    (hws : ∀ c ∈ ws, pyIsSpace c = true) :
    ∀ (s : List Char) (p : Option Char), keywordSearchAux kw p s = true →
      keywordSearchAux kw p (s ++ ws) = true := by
  intro s
  induction s with
  | nil =>
    intro p h
    rw [keywordSearchAux_nil_eq] at h
    cases hm : matchKeywordHere kw [] with
    | none =>
      simp only [hm] at h
      exact Bool.noConfusion h
    | some rest =>
      simp only [hm] at h
      have hkw : kw = [] := by
        cases kw with
        | nil => rfl
        | cons k ks => simp [matchKeywordHere] at hm
      have hp : prevOk p = true := by
        rw [boundaryOk_eq] at h
        simp only [Bool.and_eq_true] at h
        exact h.1
      rw [List.nil_append, hkw]
      cases ws with
      | nil =>
        rw [keywordSearchAux_nil_eq]
        show boundaryOk p [] = true
        rw [boundaryOk_eq, hp]
        rfl
      | cons w ws' =>
        rw [keywordSearchAux_cons_eq]
        have hhead : boundaryOk p (w :: ws') = true := by
          rw [boundaryOk_eq, hp]
          show (true && !isWordChar w) = true
          rw [pyIsSpace_not_word (hws w (by simp))]
          rfl
        show (boundaryOk p (w :: ws') || keywordSearchAux [] (some w) ws') = true
        rw [hhead]
        rfl
  | cons c cs ih =>
    intro p h
    rw [keywordSearchAux_cons_eq] at h
    rw [List.cons_append, keywordSearchAux_cons_eq]
    cases hm : matchKeywordHere kw (c :: cs) with
    | none =>
      simp only [hm] at h
      have htail : keywordSearchAux kw (some c) cs = true := by
        simpa using h
      have hg := ih (some c) htail
      rw [hg]
      simp
    | some rest =>
      simp only [hm] at h
      by_cases hb : boundaryOk p rest = true
      · have hm2 : matchKeywordHere kw (c :: (cs ++ ws)) = some (rest ++ ws) :=
          matchKeywordHere_append ws hm
        rw [hm2]
        show (boundaryOk p (rest ++ ws) || keywordSearchAux kw (some c) (cs ++ ws)) = true
        have hbb : boundaryOk p (rest ++ ws) = true := by
          rw [boundaryOk_eq] at hb ⊢
          simp only [Bool.and_eq_true] at hb ⊢
          exact ⟨hb.1, restOk_append_ws hws hb.2⟩
        rw [hbb]
        rfl
      · have htail : keywordSearchAux kw (some c) cs = true := by
          cases hx : boundaryOk p rest
          · rw [hx] at h
            simpa using h
          · exact absurd hx hb
        have hg := ih (some c) htail
        rw [hg]
        simp

theorem keywordSearch_prepend {kw t : List Char} (ws : List Char)
    (hws : ∀ c ∈ ws, pyIsSpace c = true)
    (h : keywordSearchAux kw none t = true) :
    keywordSearchAux kw none (ws ++ t) = true := by
  induction ws with
  | nil => exact h
  | cons w ws' ih =>
    have ih' := ih (fun c hc => hws c (by simp [hc]))
    rw [List.cons_append, keywordSearchAux_cons_eq]
    have hprev : keywordSearchAux kw (some w) (ws' ++ t) =
        keywordSearchAux kw none (ws' ++ t) := by
      apply keywordSearchAux_prevOk
      show (!isWordChar w) = true
      rw [pyIsSpace_not_word (hws w (by simp))]
      rfl
    rw [hprev, ih']
    simp

theorem keywordSearch_map (kw l : List Char) :
    keywordSearch kw (l.map Char.toLower) = keywordSearch kw l :=
  keywordSearchAux_map l none none rfl

theorem containsDangerous_map_toLower (l : List Char) :
    containsDangerous (l.map Char.toLower) = containsDangerous l := by
  unfold containsDangerous
  have h45 := toLower_fix_iff (d := '-') (by decide) (by decide)
  have h47 := toLower_fix_iff (d := '/') (by decide) (by decide)
  have h42 := toLower_fix_iff (d := '*') (by decide) (by decide)
  have h46 := toLower_fix_iff (d := '.') (by decide) (by decide)
  have hdd : isSubstring "--".data (l.map Char.toLower) =
      isSubstring "--".data l := isSubstring_pair_map h45 h45 l
  have hsc : isSubstring "/*".data (l.map Char.toLower) =
      isSubstring "/*".data l := isSubstring_pair_map h47 h42 l
  have hce : isSubstring "*/".data (l.map Char.toLower) =
      isSubstring "*/".data l := isSubstring_pair_map h42 h47 l
  have hpp : isSubstring "..".data (l.map Char.toLower) =
      isSubstring "..".data l := isSubstring_pair_map h46 h46 l
  have hkw : (fun kw => keywordSearch kw (l.map Char.toLower)) =
      (fun kw => keywordSearch kw l) := by
    funext kw
    exact keywordSearch_map kw l
  rw [any_class_map_toLower isQuoteChar_toLower,
    any_class_map_toLower isAngleChar_toLower,
    any_class_map_toLower isPathSep_toLower,
    any_class_map_toLower isControlChar_toLower,
    hdd, hsc, hce, hpp, hkw]

theorem containsDangerous_pad {t : List Char} (ws1 ws2 : List Char)
    (h1 : ∀ c ∈ ws1, pyIsSpace c = true) (h2 : ∀ c ∈ ws2, pyIsSpace c = true)
    (h : containsDangerous t = true) :
    containsDangerous (ws1 ++ (t ++ ws2)) = true := by
  unfold containsDangerous at h ⊢
  simp only [Bool.or_eq_true] at h
  rcases h with ((((((((hq | hs1) | hs2) | hs3) | hkw) | ha) | hs4) | hp) | hc)
  · simp [List.any_append, hq]
  · simp [isSubstring_pad ws1 ws2 hs1]
  · simp [isSubstring_pad ws1 ws2 hs2]
  · simp [isSubstring_pad ws1 ws2 hs3]
  · rw [List.any_eq_true] at hkw
    obtain ⟨kw, hmem, hsearch⟩ := hkw
    have hsearch1 : keywordSearchAux kw none (t ++ ws2) = true :=
      keywordSearchAux_append ws2 h2 t none hsearch
    have hsearch2 : keywordSearch kw (ws1 ++ (t ++ ws2)) = true :=
      keywordSearch_prepend ws1 h1 hsearch1
    have hany : SQL_KEYWORDS.any
        (fun kw => keywordSearch kw (ws1 ++ (t ++ ws2))) = true :=
      List.any_eq_true.mpr ⟨kw, hmem, hsearch2⟩
    simp [hany]
  · simp [List.any_append, ha]
  · simp [isSubstring_pad ws1 ws2 hs4]
  · simp [List.any_append, hp]
  · simp [List.any_append, hc]

theorem containsDangerous_sanitized {s : List Char}
    (hd : containsDangerous s = false) :
    containsDangerous (pyLower (pyStrip s)) = false := by
  unfold pyLower
  rw [containsDangerous_map_toLower]
  cases hb : containsDangerous (pyStrip s)
  · rfl
  · exfalso
    obtain ⟨ws1, ws2, h1, h2, hdec⟩ := pyStrip_decomp s
    have hpad := containsDangerous_pad ws1 ws2 h1 h2 hb
    rw [← hdec] at hpad
    rw [hpad] at hd
    cases hd

/-! Claim theorems. -/

/-- C1 counterexample: the string of `'a'` followed by 50 spaces has pre-trim
length 51 (exceeding the maximum of 50) and is neither empty nor
whitespace-only, yet `validate_pokemon_name` accepts it (the code measures
the length of the trimmed, lowercased string, which here is `"a"`). -/
theorem long_raw_accepted_counterexample :
    ('a' :: List.replicate 50 ' ').length = 51 ∧
    ('a' :: List.replicate 50 ' ').all pyIsSpace = false ∧
    validate_pokemon_name ('a' :: List.replicate 50 ' ') = ⟨true, ['a'], ""⟩ :=
  ⟨by decide, by decide, by decide⟩

/-- C1 (amended): the length check is performed on the trimmed, lowercased
candidate, not on the pre-trim original: whenever the stripped-and-lowercased
input is longer than the configured maximum of 50 characters,
`validate_pokemon_name` returns invalid with the too-long message.
In particular 51 repetitions of `"a"` are rejected with that message. -/
theorem too_long_rejected (s : List Char)
    (h : MAX_INPUT_LENGTH < (pyLower (pyStrip s)).length) :
    validate_pokemon_name s = ⟨false, [], MSG_TOO_LONG⟩ := by
  have h' : (pyStrip s).isEmpty = false := by
    cases hb : pyStrip s with
    | nil =>
      rw [hb] at h
      simp [pyLower, MAX_INPUT_LENGTH] at h
    | cons c t => rfl
  exact validate_too_long h' h

/-- C1 witness: 51 repetitions of `"a"` satisfy the length hypothesis and are
rejected with the too-long message. -/
theorem too_long_rejected_witness :
    MAX_INPUT_LENGTH < (pyLower (pyStrip (List.replicate 51 'a'))).length ∧
    validate_pokemon_name (List.replicate 51 'a') = ⟨false, [], MSG_TOO_LONG⟩ :=
  ⟨by decide, too_long_rejected _ (by decide)⟩

/-- C2: for every input, exactly one of `is_valid = true` or
`error_message ≠ ""` holds, and the sanitized value is non-empty exactly when
the result is valid. -/
theorem validation_result_invariant (s : List Char) :
    ((validate_pokemon_name s).is_valid = true ↔
      (validate_pokemon_name s).error_message = "") ∧
    ((validate_pokemon_name s).sanitized_name ≠ [] ↔
      (validate_pokemon_name s).is_valid = true) := by
  rcases validate_cases s with h | h | h | h | h
  · rw [h]; refine ⟨by simp [MSG_EMPTY], by simp⟩
  · rw [h]; refine ⟨by simp [show MSG_TOO_LONG ≠ "" from by decide], by simp⟩
  · rw [h]; refine ⟨by simp [MSG_DANGEROUS], by simp⟩
  · rw [h]; refine ⟨by simp [MSG_CHARSET], by simp⟩
  · have hv : (validate_pokemon_name s).is_valid = true := by rw [h]
    obtain ⟨_, _, _, hm, _⟩ := valid_conditions hv
    rw [h]
    exact ⟨by simp, by simpa using validNameMatch_ne_nil hm⟩

/-- C3 counterexample: the input `"a\xa0b"` (non-breaking space U+00A0 in
the middle) is accepted — the allow-list class `\s` admits any whitespace —
but its sanitized value does not match the spec's claimed output regex
`^[a-z0-9\- ]*$`, which allows only the plain space character. -/
theorem sanitized_not_space_only_counterexample :
    (validate_pokemon_name ['a', Char.ofNat 160, 'b']).is_valid = true ∧
    (validate_pokemon_name ['a', Char.ofNat 160, 'b']).sanitized_name.all
      specSanitizedChar = false :=
  ⟨by decide, by decide⟩

/-- C3 (amended): for every accepted input, the sanitized value matches
`^[a-z0-9\-\s]*$` — lowercase letters, digits, hyphen, or any (Unicode)
whitespace character, not just the space character — and equals the input
stripped of surrounding whitespace and lowercased. -/
theorem sanitized_shape (s : List Char)
    (h : (validate_pokemon_name s).is_valid = true) :
    (validate_pokemon_name s).sanitized_name.all loweredNameChar = true ∧
    (validate_pokemon_name s).sanitized_name = pyLower (pyStrip s) := by
  obtain ⟨_, _, _, hm, heq⟩ := valid_conditions h
  rw [heq]
  refine ⟨?_, rfl⟩
  have hall : (pyLower (pyStrip s)).all isValidNameChar = true := by
    unfold validNameMatch at hm
    simp only [Bool.and_eq_true] at hm
    exact hm.2
  exact all_loweredNameChar_of_map hall

/-- C3 witness: `" Pikachu "` is accepted; its sanitized value `"pikachu"`
is in the guaranteed character class and equals the stripped, lowercased
input. -/
theorem sanitized_shape_witness :
    (validate_pokemon_name " Pikachu ".data).is_valid = true ∧
    (validate_pokemon_name " Pikachu ".data).sanitized_name.all
      loweredNameChar = true ∧
    (validate_pokemon_name " Pikachu ".data).sanitized_name =
      pyLower (pyStrip " Pikachu ".data) :=
  ⟨by decide, (sanitized_shape _ (by decide)).1, (sanitized_shape _ (by decide)).2⟩

/-- C4: idempotence — whenever validation succeeds, re-validating the
returned sanitized value succeeds again and yields the same sanitized
value. -/
theorem revalidation_idempotent (s : List Char)
    (h : (validate_pokemon_name s).is_valid = true) :
    validate_pokemon_name ((validate_pokemon_name s).sanitized_name) =
      ⟨true, (validate_pokemon_name s).sanitized_name, ""⟩ ∧
    (validate_pokemon_name
        ((validate_pokemon_name s).sanitized_name)).sanitized_name =
      (validate_pokemon_name s).sanitized_name := by
  obtain ⟨h1, hl, hd, hm, heq⟩ := valid_conditions h
  rw [heq]
  dsimp only
  have hstrip : pyStrip (pyLower (pyStrip s)) = pyLower (pyStrip s) :=
    pyStrip_pyLower_pyStrip s
  have hlow : pyLower (pyStrip (pyLower (pyStrip s))) = pyLower (pyStrip s) := by
    rw [hstrip, pyLower_idem]
  have hne : pyLower (pyStrip s) ≠ [] := validNameMatch_ne_nil hm
  have hempty : (pyStrip (pyLower (pyStrip s))).isEmpty = false := by
    rw [hstrip]
    cases hx : pyLower (pyStrip s) with
    | nil => exact absurd hx hne
    | cons a b => rfl
  have hlen : (pyLower (pyStrip (pyLower (pyStrip s)))).length ≤
      MAX_INPUT_LENGTH := by
    rw [hlow]
    exact hl
  have hdang : containsDangerous (pyLower (pyStrip s)) = false :=
    containsDangerous_sanitized hd
  have hmatch : validNameMatch (pyLower (pyStrip (pyLower (pyStrip s)))) =
      true := by
    rw [hlow]
    exact hm
  have hok := validate_ok hempty hlen hdang hmatch
  rw [hok, hlow]
  exact ⟨rfl, rfl⟩

/-- C4 witness: for the accepted input `" Pikachu "`, re-validating the
sanitized value `"pikachu"` succeeds and returns it unchanged. -/
theorem revalidation_idempotent_witness :
    (validate_pokemon_name " Pikachu ".data).is_valid = true ∧
    validate_pokemon_name
        ((validate_pokemon_name " Pikachu ".data).sanitized_name) =
      ⟨true, (validate_pokemon_name " Pikachu ".data).sanitized_name, ""⟩ ∧
    (validate_pokemon_name
        ((validate_pokemon_name " Pikachu ".data).sanitized_name)).sanitized_name =
      (validate_pokemon_name " Pikachu ".data).sanitized_name :=
  ⟨by decide, (revalidation_idempotent _ (by decide)).1,
   (revalidation_idempotent _ (by decide)).2⟩

/-- C5: every input that is empty or consists only of whitespace characters
is rejected with the empty-input message (the `EmptyInput` error,
`"Please enter a Pokémon name"` in the code). -/
theorem whitespace_only_rejected (s : List Char) (h : s.all pyIsSpace = true) :
    validate_pokemon_name s = ⟨false, [], MSG_EMPTY⟩ :=
  validate_empty (by rw [pyStrip_eq_nil_of_all h]; rfl)

/-- C5 witness: both `""` and `"   "` are whitespace-only and are rejected
with the empty-input message. -/
theorem whitespace_only_rejected_witness :
    ("".data.all pyIsSpace = true ∧
      validate_pokemon_name "".data = ⟨false, [], MSG_EMPTY⟩) ∧
    ("   ".data.all pyIsSpace = true ∧
      validate_pokemon_name "   ".data = ⟨false, [], MSG_EMPTY⟩) :=
  ⟨⟨by decide, whitespace_only_rejected _ (by decide)⟩,
   ⟨by decide, whitespace_only_rejected _ (by decide)⟩⟩

/-- C6: for every non-empty input within the length limit in which some
deny-list pattern matches (the scan running case-insensitively on the
original, untrimmed input), validation fails with the
dangerous-characters message. -/
theorem dangerous_rejected (s : List Char)
    (h1 : (pyStrip s).isEmpty = false)
    (h2 : (pyLower (pyStrip s)).length ≤ MAX_INPUT_LENGTH)
    (h3 : containsDangerous s = true) :
    validate_pokemon_name s = ⟨false, [], MSG_DANGEROUS⟩ :=
  validate_dangerous h1 h2 h3

/-- C6 witness: `"Pikachu; DROP TABLE x"` and `"../../etc/passwd"` both
match the deny-list and are rejected with the dangerous-characters
message. -/
theorem dangerous_rejected_witness :
    (containsDangerous "Pikachu; DROP TABLE x".data = true ∧
      validate_pokemon_name "Pikachu; DROP TABLE x".data =
        ⟨false, [], MSG_DANGEROUS⟩) ∧
    (containsDangerous "../../etc/passwd".data = true ∧
      validate_pokemon_name "../../etc/passwd".data =
        ⟨false, [], MSG_DANGEROUS⟩) :=
  ⟨⟨by decide, dangerous_rejected _ (by decide) (by decide) (by decide)⟩,
   ⟨by decide, dangerous_rejected _ (by decide) (by decide) (by decide)⟩⟩

/-- C7: the four checks run in the fixed order empty-check, length-check,
deny-list, allow-list, each short-circuiting: whichever earliest check
fails determines the message, regardless of later checks; in particular
`"café"` passes the first three checks and is rejected by the allow-list. -/
theorem check_order (s : List Char) :
    ((pyStrip s).isEmpty = true →
      (validate_pokemon_name s).error_message = MSG_EMPTY) ∧
    ((pyStrip s).isEmpty = false →
      MAX_INPUT_LENGTH < (pyLower (pyStrip s)).length →
      (validate_pokemon_name s).error_message = MSG_TOO_LONG) ∧
    ((pyStrip s).isEmpty = false →
      (pyLower (pyStrip s)).length ≤ MAX_INPUT_LENGTH →
      containsDangerous s = true →
      (validate_pokemon_name s).error_message = MSG_DANGEROUS) ∧
    ((pyStrip s).isEmpty = false →
      (pyLower (pyStrip s)).length ≤ MAX_INPUT_LENGTH →
      containsDangerous s = false →
      validNameMatch (pyLower (pyStrip s)) = false →
      (validate_pokemon_name s).error_message = MSG_CHARSET) ∧
    validate_pokemon_name "café".data = ⟨false, [], MSG_CHARSET⟩ :=
  ⟨fun h => by rw [validate_empty h],
   fun h hl => by rw [validate_too_long h hl],
   fun h hl hd => by rw [validate_dangerous h hl hd],
   fun h hl hd hm => by rw [validate_charset h hl hd hm],
   by decide⟩

/-- C7 witness: concrete inputs failing several checks at once get the
message of the earliest failing check: 60 semicolons fail length, deny-list
and allow-list but report too-long; `"café; x"` fails deny-list and
allow-list but reports dangerous characters; `"café"` fails only the
allow-list. -/
theorem check_order_witness :
    (validate_pokemon_name "   ".data).error_message = MSG_EMPTY ∧
    (validate_pokemon_name (List.replicate 60 ';')).error_message =
      MSG_TOO_LONG ∧
    (validate_pokemon_name "café; x".data).error_message = MSG_DANGEROUS ∧
    (validate_pokemon_name "café".data).error_message = MSG_CHARSET :=
  ⟨(check_order "   ".data).1 (by decide),
   (check_order (List.replicate 60 ';')).2.1 (by decide) (by decide),
   (check_order "café; x".data).2.2.1 (by decide) (by decide) (by decide),
   (check_order "café".data).2.2.2.1 (by decide) (by decide) (by decide)
     (by decide)⟩

/-- C8: the two duplicated validators, in `pokedex_gui.py` and in
`request_API_From_PokeAPI.py`, are extensionally equal: they return the same
`(is_valid, sanitized_name, error_message)` triple on every input. -/
theorem duplicated_validators_agree (s : List Char) :
    validate_pokemon_name s = RequestAPI.validate_pokemon_name s := rfl

/-- C9: validation is total and throw-free: on every input it returns a
`ValidationResult` whose failure mode is a populated error message together
with `is_valid = false` (the Lean model is a total, pure function, matching
the code, which performs no I/O and raises no exceptions). -/
theorem validate_reports_never_throws (s : List Char) :
    ((validate_pokemon_name s).is_valid = true ∧
      (validate_pokemon_name s).error_message = "") ∨
    ((validate_pokemon_name s).is_valid = false ∧
      (validate_pokemon_name s).error_message ≠ "") := by
  rcases validate_cases s with h | h | h | h | h
  · exact Or.inr ⟨by rw [h], by rw [h]; decide⟩
  · exact Or.inr ⟨by rw [h], by rw [h]; decide⟩
  · exact Or.inr ⟨by rw [h], by rw [h]; decide⟩
  · exact Or.inr ⟨by rw [h], by rw [h]; decide⟩
  · exact Or.inl ⟨by rw [h], by rw [h]⟩

/-- C10: every input accepted by the full validator also passes the quick
deny-list-only check `is_safe_input`. -/
theorem valid_implies_safe (s : List Char)
    (h : (validate_pokemon_name s).is_valid = true) :
    is_safe_input s = true := by
  obtain ⟨h1, _, hd, _, _⟩ := valid_conditions h
  have hs : s.isEmpty = false := pyStrip_isEmpty_false h1
  unfold is_safe_input
  rw [hs, hd]
  rfl

/-- C10 witness: `"pikachu"` is accepted by the validator and passes
`is_safe_input`. -/
theorem valid_implies_safe_witness :
    (validate_pokemon_name "pikachu".data).is_valid = true ∧
    is_safe_input "pikachu".data = true :=
  ⟨by decide, valid_implies_safe _ (by decide)⟩

end PokeFetcher
